import Mathlib

/-!
A shallow embedding of OpenTTD's base-media registry
(`src/base_media_func.h`): manifest parsing into set descriptors
(`BaseSet::FillSetDetails`), registry reconciliation (`BaseMedia::AddFile`),
active-set selection (`BaseMedia::SetSet`), enumeration
(`BaseMedia::GetNumSets`, `BaseMedia::GetIndexOfUsedSet`) and content
matching (`TryGetBaseSetFile`, `BaseMedia::HasSet`).

Modelling conventions:
* C strings become `String`; a `char *` that may be `NULL` becomes
  `Option String`.
* The ini file is the external parser capability: a list of named groups,
  each a list of items with an optional value.  `IniFile.find` models
  `IniFile::find` (may fail), `IniFile.get_group` models
  `IniFile::get_group` (creates an empty group when absent).
* Machine integers become `Nat` (uint, uint32, uint8 with explicit
  `% 256` where the source casts) and `Int` (the `version` field, parsed
  by `atoi`).
* Pointer identity of heap-allocated descriptors is modelled by a `Nat`
  field `id`; the `used_set` pointer becomes `Option Nat` holding the id
  of the descriptor it points at.
* The external file check `T::CheckMD5(file, BASESET_DIR)` is a parameter
  of type `MD5File → ChecksumResult`.
-/

/-- One key/value entry of an ini group; the value may be absent (a
`NULL` `char *` in the source). -/
structure IniItem where
  name : String
  value : Option String
  deriving DecidableEq

/-- One named group of ini items. -/
structure IniGroup where
  items : List IniItem
  deriving DecidableEq

/-- `IniGroup::find`: first item with the given name. -/
def IniGroup.find (g : IniGroup) (n : String) : Option IniItem :=
  g.items.find? (fun it => it.name == n)

/-- A parsed ini file: a list of named groups. -/
structure IniFile where
  groups : List (String × IniGroup)
  deriving DecidableEq

/-- `IniFile::find`: first group with the given name, or nothing. -/
def IniFile.find (ini : IniFile) (n : String) : Option IniGroup :=
  (ini.groups.find? (fun g => g.1 == n)).map (fun g => g.2)

/-- `IniFile::get_group`: like `find` but creates an empty group when the
name is absent, so it always succeeds. -/
def IniFile.get_group (ini : IniFile) (n : String) : IniGroup :=
  (ini.find n).getD ⟨[]⟩

/-- `StrEmpty`: the C string is `NULL` or starts with the terminator. -/
def StrEmpty : Option String → Bool
  | none => true
  | some s => s == ""

/-- `fetch_metadata`: look an item up in the metadata group, treating an
absent item or an empty value as missing (returns `NULL`). -/
def fetch_metadata (metadata : IniGroup) (n : String) : Option IniItem :=
  match metadata.find n with
  | none => none
  | some item => if StrEmpty item.value then none else some item

/-- Result of the external `CheckMD5` file check. -/
inductive ChecksumResult where
  | CR_MATCH
  | CR_MISMATCH
  | CR_NO_FILE
  deriving DecidableEq

/-- `MD5File`: one required file of a set.  `hash` is the 16-byte
checksum (bytes as `Nat`); `filename` is `NULL` for an explicitly empty
slot. -/
structure MD5File where
  filename : Option String
  hash : List Nat
  missing_warning : String
  deriving DecidableEq

/-- Value of one hex digit, as in the character classification of the
checksum-decoding loop of `FillSetDetails`; `none` for any character
outside `[0-9a-fA-F]`. -/
def hexVal (c : Char) : Option Nat :=
  if ('0' ≤ c ∧ c ≤ '9') then some (c.toNat - '0'.toNat)
  else if ('a' ≤ c ∧ c ≤ 'f') then some (c.toNat - 'a'.toNat + 10)
  else if ('A' ≤ c ∧ c ≤ 'F') then some (c.toNat - 'A'.toNat + 10)
  else none

/-- Read character `i` of a C string modelled as a character list: one
position past the end holds the terminator `'\x00'` (and the decoding
loop below never reads further, since the terminator is rejected). -/
def readC (cs : List Char) (i : Nat) : Char := cs.getD i (Char.ofNat 0)

/-- The checksum-decoding loop of `FillSetDetails`: consume `2*n`
characters two at a time, big nibble first (`hash[i/2] = j << 4` then
`hash[i/2] |= j`); abort at the first character outside the hex
alphabet.  Characters beyond position `2*n - 1` are never examined. -/
def decodeHexPairs : Nat → List Char → Option (List Nat)
  | 0, _ => some []
  | n + 1, cs =>
    match hexVal (readC cs 0), hexVal (readC cs 1) with
    | some hi, some lo =>
      Option.map (fun r => ((hi <<< 4) ||| lo) :: r) (decodeHexPairs n cs.tail.tail)
    | _, _ => none

/-- Decode an MD5 checksum string: 16 output bytes, hence 32 hex
characters consumed (`sizeof(file->hash) * 2` in the source). -/
def decodeMD5 (s : String) : Option (List Nat) := decodeHexPairs 16 s.data

/-- Loop of the `shortname` computation: `shortname |= ((uint8)value[i])
<< (i * 8)` while `value[i] != '\0' && i < 4`. -/
def computeShortnameGo : List Char → Nat → Nat → Nat
  | [], _, acc => acc
  | c :: rest, i, acc =>
    if i < 4 then computeShortnameGo rest (i + 1) (acc ||| ((c.toNat % 256) <<< (i * 8)))
    else acc

/-- The packed 32-bit short identifier computed from up to the first 4
bytes of the `shortname` field. -/
def computeShortname (s : String) : Nat := computeShortnameGo s.data 0 0

/-- The whitespace set skipped by C `atoi` via `isspace`. -/
def cIsSpace (c : Char) : Bool :=
  c == ' ' || c == '\t' || c == '\n' || c == '\x0b' || c == '\x0c' || c == '\r'

/-- Digit-accumulation loop of C `atoi`: stop at the first non-digit. -/
def atoiDigits : List Char → Int → Int
  | [], acc => acc
  | c :: rest, acc =>
    if ('0' ≤ c ∧ c ≤ '9') then atoiDigits rest (acc * 10 + Int.ofNat (c.toNat - '0'.toNat))
    else acc

/-- Optional sign handling of C `atoi`. -/
def atoiSign : List Char → Int
  | '-' :: rest => - atoiDigits rest 0
  | '+' :: rest => atoiDigits rest 0
  | cs => atoiDigits cs 0

/-- C `atoi`, used by `FillSetDetails` for the `version` field: skip
whitespace, optional sign, then digits; 0 when no digits follow. -/
def atoi (s : String) : Int := atoiSign (s.data.dropWhile cIsSpace)

/-- A base-media set descriptor (`BaseSet`).  `id` models the pointer
identity of the heap allocation; `description` is the map from language
tag (empty string = default) to localized description. -/
structure BaseSet where
  id : Nat
  name : String
  description : List (String × String)
  shortname : Nat
  version : Int
  fallback : Bool
  files : List MD5File
  valid_files : Nat
  found_files : Nat
  deriving DecidableEq

/-- The description table built by `FillSetDetails`: the default entry
from the `description` field, then one entry per metadata key beginning
with `description.` (the first 12 characters compared by `strncmp`),
keyed by the remainder of the key. -/
def descriptionEntries (metadata : IniGroup) (defaultDesc : String) : List (String × String) :=
  ("", defaultDesc) ::
    metadata.items.filterMap (fun it =>
      if it.name.take 12 == "description." then some (it.name.drop 12, it.value.getD "")
      else none)

/-- The `origin`-group lookup of the missing-file warning: by filename,
falling back to the key `default`, falling back to the empty string. -/
def originWarning (origin : IniGroup) (filename : String) : String :=
  match origin.find filename with
  | some it => it.value.getD ""
  | none =>
    match origin.find "default" with
    | some it => it.value.getD ""
    | none => ""

/-- One iteration of the per-file loop of `FillSetDetails`, for the file
slot named `fn`: yields the file record together with its contribution
`(Δvalid_files, Δfound_files)` to the two counters, or `none` on a hard
failure (missing `files` entry, a `NULL` filename when empty filenames
are not allowed, missing or undecodable `md5s` entry). -/
def fillOne (filesg md5s origin : IniGroup) (path : String) (allow_empty_filename : Bool)
    (check : MD5File → ChecksumResult) (fn : String) : Option (MD5File × Nat × Nat) :=
  match filesg.find fn with
  | none => none
  | some item =>
    match item.value with
    | none =>
      if allow_empty_filename then some (⟨none, List.replicate 16 0, ""⟩, 1, 1)
      else none
    | some filename =>
      match md5s.find filename with
      | none => none
      | some md5item =>
        match md5item.value with
        | none => none
        | some hexstr =>
          match decodeMD5 hexstr with
          | none => none
          | some hash =>
            let file : MD5File := ⟨some (path ++ filename), hash, originWarning origin filename⟩
            match check file with
            | ChecksumResult.CR_MATCH => some (file, 1, 1)
            | ChecksumResult.CR_MISMATCH => some (file, 0, 1)
            | ChecksumResult.CR_NO_FILE => some (file, 0, 0)

/-- The per-file loop of `FillSetDetails` over the declared file-name
list, accumulating the file table and the `valid_files` / `found_files`
counters; `none` as soon as one slot hard-fails. -/
def fillFiles (filesg md5s origin : IniGroup) (path : String) (allow_empty_filename : Bool)
    (check : MD5File → ChecksumResult) : List String → Option (List MD5File × Nat × Nat)
  | [] => some ([], 0, 0)
  | fn :: rest =>
    match fillOne filesg md5s origin path allow_empty_filename check fn with
    | none => none
    | some (file, v1, f1) =>
      match fillFiles filesg md5s origin path allow_empty_filename check rest with
      | none => none
      | some (fs, v, f) => some (file :: fs, v1 + v, f1 + f)

/-- `BaseSet::FillSetDetails`.  `file_names` is the static
`file_names` table (so `file_names.length` is `Tnum_files`), `check` the
external `T::CheckMD5` capability and `id` the identity of the freshly
allocated descriptor.  Returns the populated descriptor, or `none` on a
hard failure (the source's `return false`). -/
def FillSetDetails (file_names : List String) (check : MD5File → ChecksumResult) (id : Nat)
    (ini : IniFile) (path full_filename : String) (allow_empty_filename : Bool) :
    Option BaseSet :=
  match ini.find "metadata" with
  | none => none
  | some metadata =>
    match fetch_metadata metadata "name" with
    | none => none
    | some nameItem =>
      match fetch_metadata metadata "description" with
      | none => none
      | some descItem =>
        match fetch_metadata metadata "shortname" with
        | none => none
        | some shortItem =>
          match fetch_metadata metadata "version" with
          | none => none
          | some versionItem =>
            match fillFiles (ini.get_group "files") (ini.get_group "md5s")
                (ini.get_group "origin") path allow_empty_filename check file_names with
            | none => none
            | some (fs, v, f) =>
              some
                { id := id
                  name := nameItem.value.getD ""
                  description := descriptionEntries metadata (descItem.value.getD "")
                  shortname := computeShortname (shortItem.value.getD "")
                  version := atoi (versionItem.value.getD "")
                  fallback :=
                    match metadata.find "fallback" with
                    | none => false
                    | some it =>
                      !(it.value.getD "" == "0") && !(it.value.getD "" == "false")
                  files := fs
                  valid_files := v
                  found_files := f }

/-- The static registry state of `BaseMedia`: the accepted list
(`available_sets`), the superseded list (`duplicate_sets`) and the
active-set pointer (`used_set`, holding a descriptor id or nothing). -/
structure RegistryState where
  available_sets : List BaseSet
  duplicate_sets : List BaseSet
  used_set : Option Nat
  deriving DecidableEq

/-- The duplicate test of `AddFile`: same `name` (by `strcmp`) or same
`shortname`. -/
def collides (c s : BaseSet) : Bool := c.name == s.name || c.shortname == s.shortname

/-- The duplicate-search loop of `AddFile`: first accepted descriptor
colliding with the candidate. -/
def findDuplicate (s : BaseSet) : List BaseSet → Option BaseSet
  | [] => none
  | c :: rest => if collides c s then some c else findDuplicate s rest

/-- The splice of `AddFile`'s winner branch (`*prev = set; set->next =
duplicate->next`): the candidate takes the list position of the first
colliding descriptor, everything else keeps its place. -/
def replaceDuplicate (s : BaseSet) : List BaseSet → List BaseSet
  | [] => []
  | c :: rest => if collides c s then s :: rest else c :: replaceDuplicate s rest

/-- The registry-reconciliation part of `BaseMedia::AddFile`, acting on a
descriptor that `FillSetDetails` already accepted.  Returns the source's
`ret` flag together with the new registry state. -/
def AddFileCore (st : RegistryState) (s : BaseSet) : Bool × RegistryState :=
  match findDuplicate s st.available_sets with
  | some duplicate =>
    if (duplicate.valid_files = s.valid_files ∧ duplicate.version ≥ s.version) ∨
        duplicate.valid_files > s.valid_files then
      (false,
       { available_sets := st.available_sets
         duplicate_sets := s :: st.duplicate_sets
         used_set := st.used_set })
    else
      (true,
       { available_sets := replaceDuplicate s st.available_sets
         duplicate_sets := duplicate :: st.duplicate_sets
         used_set := if st.used_set = some duplicate.id then some s.id else st.used_set })
  | none =>
    (true,
     { available_sets := st.available_sets ++ [s]
       duplicate_sets := st.duplicate_sets
       used_set := st.used_set })

/-- `BaseMedia::AddFile`: parse the manifest into a fresh descriptor via
`FillSetDetails` (loading from disk and deriving `path` from the
filename are external; `ini` and `path` stand for their results) and
reconcile it into the registry; a parse failure deletes the descriptor
and leaves the registry untouched. -/
def AddFile (file_names : List String) (check : MD5File → ChecksumResult) (newId : Nat)
    (st : RegistryState) (ini : IniFile) (path filename : String)
    (allow_empty_filename : Bool) : Bool × RegistryState :=
  match FillSetDetails file_names check newId ini path filename allow_empty_filename with
  | none => (false, st)
  | some s => AddFileCore st s

/-- `BaseMedia::SetSet`.  The empty-name branch delegates to the
external `DetermineBestSet` policy, modelled by the `best` parameter;
`CheckExternalFiles` does not touch the registry state. -/
def SetSet (best : RegistryState → Bool × RegistryState) (st : RegistryState) (n : String) :
    Bool × RegistryState :=
  if n == "" then best st
  else
    match st.available_sets.find? (fun s => s.name == n) with
    | some s => (true, { st with used_set := some s.id })
    | none => (false, st)

/-- Modelled from the spec: `BaseSet::GetNumMissing` is declared in
`base_media_base.h`, which is not part of this excerpt.  Per the spec, a
set's missing-file count is the number of required files that are
neither Matched nor Mismatched, i.e. `Tnum_files - found_files`; the
length of the descriptor's file table stands for `Tnum_files`. -/
def GetNumMissing (s : BaseSet) : Nat := s.files.length - s.found_files

/-- Counting loop of `BaseMedia::GetNumSets`: skip a set that is not the
used set and has missing files, count everything else. -/
def countVisibleGo (used : Option Nat) : List BaseSet → Nat
  | [] => 0
  | s :: rest =>
    if ¬ (used = some s.id) ∧ GetNumMissing s ≠ 0 then countVisibleGo used rest
    else countVisibleGo used rest + 1

/-- `BaseMedia::GetNumSets`. -/
def GetNumSets (st : RegistryState) : Nat := countVisibleGo st.used_set st.available_sets

/-- Search loop of `BaseMedia::GetIndexOfUsedSet`: return the running
count when the used set is reached, skip invisible sets, otherwise
increment; `-1` when the list ends. -/
def indexOfUsedGo (used : Option Nat) : List BaseSet → Nat → Int
  | [], _ => -1
  | s :: rest, n =>
    if used = some s.id then Int.ofNat n
    else if GetNumMissing s ≠ 0 then indexOfUsedGo used rest n
    else indexOfUsedGo used rest (n + 1)

/-- `BaseMedia::GetIndexOfUsedSet`. -/
def GetIndexOfUsedSet (st : RegistryState) : Int :=
  indexOfUsedGo st.used_set st.available_sets 0

/-- The remote-content descriptor handed to the matcher: packed short
identifier and 16-byte digest. -/
structure ContentInfo where
  unique_id : Nat
  md5sum : List Nat
  deriving DecidableEq

/-- The combined digest of `TryGetBaseSetFile`: start from 16 zero bytes
and XOR in every file's 16-byte checksum, in file-table order
(`md5[j] ^= s->files[i].hash[j]`). -/
def combinedMD5 (files : List MD5File) : List Nat :=
  files.foldl (fun acc f => (List.range 16).map (fun j => acc.getD j 0 ^^^ f.hash.getD j 0))
    (List.replicate 16 0)

/-- The primary file path of a set: `s->files[0].filename`. -/
def primaryPath (s : BaseSet) : Option String :=
  (s.files.headD ⟨none, [], ""⟩).filename

/-- `TryGetBaseSetFile` over one list of sets: skip sets with missing
files, skip short-identifier mismatches, then answer with the primary
file path — immediately when no digest check is requested, otherwise
only when the combined XOR digest equals the requested one. -/
def TryGetBaseSetFile (ci : ContentInfo) (md5sum : Bool) : List BaseSet → Option String
  | [] => none
  | s :: rest =>
    if GetNumMissing s ≠ 0 then TryGetBaseSetFile ci md5sum rest
    else if s.shortname ≠ ci.unique_id then TryGetBaseSetFile ci md5sum rest
    else if md5sum = false then primaryPath s
    else if combinedMD5 s.files = ci.md5sum then primaryPath s
    else TryGetBaseSetFile ci md5sum rest

/-- `BaseMedia::HasSet`: a match in the accepted list or in the
superseded list. -/
def HasSet (st : RegistryState) (ci : ContentInfo) (md5sum : Bool) : Bool :=
  (TryGetBaseSetFile ci md5sum st.available_sets).isSome ||
    (TryGetBaseSetFile ci md5sum st.duplicate_sets).isSome

/-- The active-set invariant from the spec: the `used_set` reference is
null or points at a descriptor currently linked in the accepted list. -/
def UsedSetInv (st : RegistryState) : Prop :=
  st.used_set = none ∨ ∃ s ∈ st.available_sets, st.used_set = some s.id

theorem replaceDuplicate_eq_splice (s : BaseSet) :
    ∀ (l : List BaseSet) (d : BaseSet), findDuplicate s l = some d →
      replaceDuplicate s l =
          l.take (l.findIdx (fun c => collides c s)) ++
            s :: l.drop (l.findIdx (fun c => collides c s) + 1) ∧
        l.get? (l.findIdx (fun c => collides c s)) = some d
  | [], d, h => by simp [findDuplicate] at h
  | c :: rest, d, h => by
    by_cases hc : collides c s
    · have hd : c = d := by simpa [findDuplicate, hc] using h
      subst hd
      simp [replaceDuplicate, hc, List.findIdx_cons]
    · have h' : findDuplicate s rest = some d := by
        simpa [findDuplicate, hc] using h
      have ih := replaceDuplicate_eq_splice s rest d h'
      refine ⟨?_, ?_⟩
      · simp [replaceDuplicate, hc, List.findIdx_cons, ih.1]
      · simpa [List.findIdx_cons, hc] using ih.2

theorem mem_replaceDuplicate (s : BaseSet) :
    ∀ (l : List BaseSet) (c : BaseSet), c ∈ l →
      c ∈ replaceDuplicate s l ∨ findDuplicate s l = some c
  | [], c, h => by cases h
  | a :: rest, c, h => by
    by_cases ha : collides a s
    · rcases List.mem_cons.mp h with rfl | hr
      · exact Or.inr (by simp [findDuplicate, ha])
      · exact Or.inl (by simp [replaceDuplicate, ha, hr])
    · rcases List.mem_cons.mp h with rfl | hr
      · exact Or.inl (by simp [replaceDuplicate, ha])
      · rcases mem_replaceDuplicate s rest c hr with h2 | h2
        · exact Or.inl (by simp [replaceDuplicate, ha, h2])
        · exact Or.inr (by simpa [findDuplicate, ha] using h2)

theorem self_mem_replaceDuplicate (s : BaseSet) :
    ∀ (l : List BaseSet) (d : BaseSet), findDuplicate s l = some d →
      s ∈ replaceDuplicate s l
  | [], d, h => by simp [findDuplicate] at h
  | c :: rest, d, h => by
    by_cases hc : collides c s
    · simp [replaceDuplicate, hc]
    · have h' : findDuplicate s rest = some d := by
        simpa [findDuplicate, hc] using h
      simpa [replaceDuplicate, hc] using
        Or.inr (self_mem_replaceDuplicate s rest d h')

/-- Claim C1: on a collision with accepted descriptor `d`, `AddFile`
classifies the candidate as the loser — prepending it to the superseded
list, leaving the accepted list (and the active set) untouched and
reporting "not added" — exactly when the incumbent has equal
`valid_files` and greater-or-equal `version`, or strictly more
`valid_files`. -/
theorem add_file_loser_iff (st : RegistryState) (s d : BaseSet)
    (hdup : findDuplicate s st.available_sets = some d) :
    (AddFileCore st s =
        (false,
         { available_sets := st.available_sets
           duplicate_sets := s :: st.duplicate_sets
           used_set := st.used_set })) ↔
      ((d.valid_files = s.valid_files ∧ d.version ≥ s.version) ∨
        d.valid_files > s.valid_files) := by
  unfold AddFileCore
  rw [hdup]
  by_cases hc : (d.valid_files = s.valid_files ∧ d.version ≥ s.version) ∨
      d.valid_files > s.valid_files
  · simp [hc]
  · simp [hc]

/-- Sample descriptor for concrete witnesses. -/
def sampleSetA : BaseSet :=
  { id := 0, name := "orig", description := [("", "d")], shortname := 100,
    version := 1, fallback := false, files := [], valid_files := 0, found_files := 0 }

/-- A second copy of `sampleSetA` at a different heap location: all
metadata identical, only the identity differs. -/
def sampleSetA2 : BaseSet :=
  { id := 1, name := "orig", description := [("", "d")], shortname := 100,
    version := 1, fallback := false, files := [], valid_files := 0, found_files := 0 }

/-- A challenger colliding with `sampleSetA` by `shortname` and winning
on `valid_files`. -/
def sampleSetB : BaseSet :=
  { id := 2, name := "better", description := [("", "d")], shortname := 100,
    version := 0, fallback := false, files := [⟨some "b.grf", List.replicate 16 0, ""⟩],
    valid_files := 1, found_files := 1 }

/-- A registry holding just `sampleSetA`, nothing active. -/
def sampleStateA : RegistryState := ⟨[sampleSetA], [], none⟩

/-- A registry holding just `sampleSetA`, which is also active. -/
def sampleStateU : RegistryState := ⟨[sampleSetA], [], some 0⟩

theorem add_file_loser_iff_witness :
    AddFileCore sampleStateA sampleSetA2 =
      (false,
       { available_sets := [sampleSetA]
         duplicate_sets := [sampleSetA2]
         used_set := none }) :=
  (add_file_loser_iff sampleStateA sampleSetA2 sampleSetA rfl).mpr
    (Or.inl ⟨rfl, le_refl 1⟩)

/-- Claim C2: when the candidate wins a collision, it is spliced into
the accepted list at exactly the incumbent's former position (everything
else keeps its place), the incumbent moves to the superseded list, and
the active-set reference is retransferred when it pointed at the
incumbent; consequently every `AddFile` step preserves the invariant
that the active-set reference is null or points at a descriptor
currently linked in the accepted list. -/
theorem add_file_winner_splice_invariant :
    (∀ (st : RegistryState) (s d : BaseSet),
        findDuplicate s st.available_sets = some d →
        ¬ ((d.valid_files = s.valid_files ∧ d.version ≥ s.version) ∨
            d.valid_files > s.valid_files) →
        AddFileCore st s =
            (true,
             { available_sets :=
                 st.available_sets.take
                     (st.available_sets.findIdx (fun c => collides c s)) ++
                   s :: st.available_sets.drop
                     (st.available_sets.findIdx (fun c => collides c s) + 1)
               duplicate_sets := d :: st.duplicate_sets
               used_set :=
                 if st.used_set = some d.id then some s.id else st.used_set }) ∧
          st.available_sets.get?
              (st.available_sets.findIdx (fun c => collides c s)) = some d) ∧
      ∀ (st : RegistryState) (s : BaseSet),
        UsedSetInv st → UsedSetInv (AddFileCore st s).2 := by
  constructor
  · intro st s d hdup hcond
    obtain ⟨hrepl, hget⟩ := replaceDuplicate_eq_splice s st.available_sets d hdup
    refine ⟨?_, hget⟩
    have he : AddFileCore st s =
        (true,
         { available_sets := replaceDuplicate s st.available_sets
           duplicate_sets := d :: st.duplicate_sets
           used_set := if st.used_set = some d.id then some s.id else st.used_set }) := by
      unfold AddFileCore
      rw [hdup]
      exact if_neg hcond
    rw [he, hrepl]
  · intro st s hinv
    cases hdup : findDuplicate s st.available_sets with
    | none =>
      have he : AddFileCore st s =
          (true,
           { available_sets := st.available_sets ++ [s]
             duplicate_sets := st.duplicate_sets
             used_set := st.used_set }) := by
        unfold AddFileCore
        rw [hdup]
      rw [he]
      rcases hinv with h | ⟨c, hc, hu⟩
      · exact Or.inl h
      · exact Or.inr ⟨c, List.mem_append_left _ hc, hu⟩
    | some d =>
      by_cases hcond : (d.valid_files = s.valid_files ∧ d.version ≥ s.version) ∨
          d.valid_files > s.valid_files
      · have he : AddFileCore st s =
            (false,
             { available_sets := st.available_sets
               duplicate_sets := s :: st.duplicate_sets
               used_set := st.used_set }) := by
          unfold AddFileCore
          rw [hdup]
          exact if_pos hcond
        rw [he]
        exact hinv
      · have he : AddFileCore st s =
            (true,
             { available_sets := replaceDuplicate s st.available_sets
               duplicate_sets := d :: st.duplicate_sets
               used_set :=
                 if st.used_set = some d.id then some s.id else st.used_set }) := by
          unfold AddFileCore
          rw [hdup]
          exact if_neg hcond
        rw [he]
        by_cases hused : st.used_set = some d.id
        · simp only [if_pos hused]
          exact Or.inr ⟨s, self_mem_replaceDuplicate s st.available_sets d hdup, rfl⟩
        · simp only [if_neg hused]
          rcases hinv with h | ⟨c, hc, hu⟩
          · exact Or.inl h
          · rcases mem_replaceDuplicate s st.available_sets c hc with h2 | h2
            · exact Or.inr ⟨c, h2, hu⟩
            · have hcd : c = d := Option.some.inj (h2.symm.trans hdup)
              subst hcd
              exact absurd hu hused

theorem add_file_winner_splice_invariant_witness :
    (AddFileCore sampleStateU sampleSetB =
        (true,
         { available_sets := [sampleSetB]
           duplicate_sets := [sampleSetA]
           used_set := some 2 }) ∧
      [sampleSetA].get? 0 = some sampleSetA) ∧
      UsedSetInv (AddFileCore sampleStateU sampleSetB).2 :=
  ⟨add_file_winner_splice_invariant.1 sampleStateU sampleSetB sampleSetA rfl (by decide),
   add_file_winner_splice_invariant.2 sampleStateU sampleSetB
     (Or.inr ⟨sampleSetA, by simp [sampleStateA, sampleStateU], rfl⟩)⟩

/-- Claim C9: selecting by a non-empty identifier activates the first
accepted set whose name matches exactly and reports success; with no
match it reports failure and the whole registry state — the active set
included — is unchanged. -/
theorem set_set_select_spec (best : RegistryState → Bool × RegistryState)
    (st : RegistryState) (n : String) (hn : n ≠ "") :
    (∀ s, st.available_sets.find? (fun c => c.name == n) = some s →
        SetSet best st n = (true, { st with used_set := some s.id })) ∧
      (st.available_sets.find? (fun c => c.name == n) = none →
        SetSet best st n = (false, st)) := by
  constructor
  · intro s hs
    unfold SetSet
    rw [if_neg (by simpa using hn), hs]
  · intro h
    unfold SetSet
    rw [if_neg (by simpa using hn), h]

/-- The trivial best-set policy used by witnesses. -/
def sampleBest : RegistryState → Bool × RegistryState := fun st => (false, st)

theorem set_set_select_spec_witness :
    SetSet sampleBest sampleStateA "orig" =
        (true, { sampleStateA with used_set := some 0 }) ∧
      SetSet sampleBest sampleStateA "zzz" = (false, sampleStateA) :=
  ⟨(set_set_select_spec sampleBest sampleStateA "orig" (by decide)).1 sampleSetA rfl,
   (set_set_select_spec sampleBest sampleStateA "zzz" (by decide)).2 rfl⟩

/-- The constant file check used by witnesses: every file is missing. -/
def chkNoFile : MD5File → ChecksumResult := fun _ => ChecksumResult.CR_NO_FILE

/-- A manifest whose metadata group lacks the `shortname` field. -/
def iniNoShort : IniFile :=
  ⟨[("metadata",
     ⟨[⟨"name", some "A"⟩, ⟨"description", some "D"⟩, ⟨"version", some "1"⟩]⟩)]⟩

/-- Claim C7: a manifest missing `metadata.shortname` makes
`FillSetDetails` fail, and `AddFile` on it reports "not added" while
leaving the registry state — both lists and the active set — exactly as
it was. -/
theorem add_file_malformed_unchanged (file_names : List String)
    (check : MD5File → ChecksumResult) (newId : Nat) (st : RegistryState)
    (ini : IniFile) (path filename : String) (ae : Bool)
    (hshort : (ini.find "metadata").bind (fun g => g.find "shortname") = none) :
    FillSetDetails file_names check newId ini path filename ae = none ∧
      AddFile file_names check newId st ini path filename ae = (false, st) := by
  have hfill : FillSetDetails file_names check newId ini path filename ae = none := by
    unfold FillSetDetails
    split
    · rfl
    · rename_i g hg
      have hsn : fetch_metadata g "shortname" = none := by
        rw [hg] at hshort
        simp only [Option.some_bind] at hshort
        unfold fetch_metadata
        rw [hshort]
      split
      · rfl
      · split
        · rfl
        · rw [hsn]
  refine ⟨hfill, ?_⟩
  unfold AddFile
  rw [hfill]

theorem add_file_malformed_unchanged_witness :
    FillSetDetails [] chkNoFile 5 iniNoShort "" "f" true = none ∧
      AddFile [] chkNoFile 5 sampleStateA iniNoShort "" "f" true =
        (false, sampleStateA) :=
  add_file_malformed_unchanged [] chkNoFile 5 sampleStateA iniNoShort "" "f" true rfl

/-- Visibility rule of the enumeration functions, as the spec states it:
an accepted set is listed when it is the active set or has no missing
files. -/
def visibleB (used : Option Nat) (s : BaseSet) : Bool :=
  used == some s.id || GetNumMissing s == 0

theorem countVisibleGo_eq_filter (used : Option Nat) :
    ∀ l : List BaseSet, countVisibleGo used l = (l.filter (visibleB used)).length
  | [] => rfl
  | s :: rest => by
    have ih := countVisibleGo_eq_filter used rest
    by_cases h1 : used = some s.id
    · subst h1
      simp [countVisibleGo, visibleB, countVisibleGo_eq_filter (some s.id) rest]
    · by_cases h2 : GetNumMissing s = 0
      · simp [countVisibleGo, visibleB, h1, h2, ih]
      · simp [countVisibleGo, visibleB, h1, h2, ih]

theorem indexOfUsedGo_of_none :
    ∀ (l : List BaseSet) (n : Nat), indexOfUsedGo none l n = -1
  | [], _ => rfl
  | s :: rest, n => by
    by_cases h2 : GetNumMissing s = 0
    · simp [indexOfUsedGo, h2, indexOfUsedGo_of_none rest]
    · simp [indexOfUsedGo, h2, indexOfUsedGo_of_none rest]

theorem indexOfUsedGo_of_mem (u : Nat) :
    ∀ (l : List BaseSet), (∃ s ∈ l, s.id = u) → ∀ n : Nat,
      indexOfUsedGo (some u) l n =
        Int.ofNat (n +
          ((l.takeWhile (fun s => !(s.id == u))).filter
              (fun s => GetNumMissing s == 0)).length)
  | [], h, n => by simp at h
  | s :: rest, h, n => by
    by_cases h1 : s.id = u
    · simp [indexOfUsedGo, h1, List.takeWhile_cons]
    · have h' : ∃ t ∈ rest, t.id = u := by
        rcases h with ⟨t, ht, htu⟩
        rcases List.mem_cons.mp ht with rfl | htr
        · exact absurd htu h1
        · exact ⟨t, htr, htu⟩
      have hne : ¬(some u = some s.id) := fun hc => h1 (Option.some.inj hc).symm
      by_cases h2 : GetNumMissing s = 0
      · have ih := indexOfUsedGo_of_mem u rest h' (n + 1)
        simp only [indexOfUsedGo]
        rw [if_neg hne, if_neg (by simp [h2]), ih]
        simp [List.takeWhile_cons, h1, h2]
        omega
      · have ih := indexOfUsedGo_of_mem u rest h' n
        simp only [indexOfUsedGo]
        rw [if_neg hne, if_pos h2, ih]
        simp [List.takeWhile_cons, h1, h2]

/-- Claim C8: `GetNumSets` counts exactly the accepted sets that are the
active set or have no missing files; under the active-set invariant,
`GetIndexOfUsedSet` is -1 exactly when no set is active, and otherwise
equals the number of visible sets strictly before the active one (its
0-based rank under the same visibility rule). -/
theorem enumeration_visibility_spec (st : RegistryState) :
    (GetNumSets st =
        (st.available_sets.filter (visibleB st.used_set)).length) ∧
      (UsedSetInv st →
        ((GetIndexOfUsedSet st = -1 ↔ st.used_set = none) ∧
          ∀ u, st.used_set = some u →
            GetIndexOfUsedSet st =
              Int.ofNat
                (((st.available_sets.takeWhile (fun s => !(s.id == u))).filter
                    (fun s => GetNumMissing s == 0)).length))) := by
  constructor
  · exact countVisibleGo_eq_filter st.used_set st.available_sets
  · intro hinv
    simp only [GetIndexOfUsedSet]
    cases hu : st.used_set with
    | none =>
      refine ⟨by simp [indexOfUsedGo_of_none], ?_⟩
      intro u hcontra
      cases hcontra
    | some u0 =>
      have hex : ∃ s ∈ st.available_sets, s.id = u0 := by
        rcases hinv with h | ⟨c, hc, he⟩
        · rw [hu] at h; cases h
        · rw [hu] at he; exact ⟨c, hc, (Option.some.inj he).symm⟩
      constructor
      · rw [indexOfUsedGo_of_mem u0 st.available_sets hex 0]
        constructor
        · intro habs; exact Int.noConfusion habs
        · intro habs; cases habs
      · intro u hu'
        obtain rfl : u0 = u := Option.some.inj hu'
        rw [indexOfUsedGo_of_mem u0 st.available_sets hex 0]
        simp

theorem enumeration_visibility_spec_witness :
    (GetNumSets sampleStateU =
        (sampleStateU.available_sets.filter (visibleB sampleStateU.used_set)).length) ∧
      (GetIndexOfUsedSet sampleStateU = -1 ↔ sampleStateU.used_set = none) ∧
      GetIndexOfUsedSet sampleStateU =
        Int.ofNat
          (((sampleStateU.available_sets.takeWhile (fun s => !(s.id == 0))).filter
              (fun s => GetNumMissing s == 0)).length) :=
  ⟨(enumeration_visibility_spec sampleStateU).1,
   ((enumeration_visibility_spec sampleStateU).2
       (Or.inr ⟨sampleSetA, List.mem_cons_self sampleSetA [], rfl⟩)).1,
   ((enumeration_visibility_spec sampleStateU).2
       (Or.inr ⟨sampleSetA, List.mem_cons_self sampleSetA [], rfl⟩)).2 0 rfl⟩

/-- Qualification predicate of the content matcher, as the spec states
it: a complete set (no missing files) with the requested short
identifier whose combined XOR digest matches when a digest check is
requested. -/
def contentMatches (ci : ContentInfo) (md5sum : Bool) (s : BaseSet) : Bool :=
  GetNumMissing s == 0 && s.shortname == ci.unique_id &&
    (!md5sum || combinedMD5 s.files == ci.md5sum)

/-- Claim C3: `TryGetBaseSetFile` answers with the primary file path of
the first qualifying set of the searched list — complete, matching short
id, and matching combined XOR digest when the check is requested — and
with absence when no set qualifies; `HasSet` applies this to the
accepted list and then the superseded list. -/
theorem try_get_base_set_file_spec (ci : ContentInfo) (md5sum : Bool) :
    (∀ l : List BaseSet,
        TryGetBaseSetFile ci md5sum l =
          (l.find? (contentMatches ci md5sum)).bind primaryPath) ∧
      ∀ st : RegistryState,
        HasSet st ci md5sum =
          (((st.available_sets.find? (contentMatches ci md5sum)).bind primaryPath).isSome ||
            ((st.duplicate_sets.find? (contentMatches ci md5sum)).bind primaryPath).isSome) := by
  have main : ∀ l : List BaseSet,
      TryGetBaseSetFile ci md5sum l =
        (l.find? (contentMatches ci md5sum)).bind primaryPath := by
    intro l
    induction l with
    | nil => rfl
    | cons s rest ih =>
      by_cases h1 : GetNumMissing s = 0
      · by_cases h2 : s.shortname = ci.unique_id
        · cases hm : md5sum
          · subst hm
            simp [TryGetBaseSetFile, contentMatches, h1, h2]
          · subst hm
            by_cases h3 : combinedMD5 s.files = ci.md5sum
            · simp [TryGetBaseSetFile, contentMatches, h1, h2, h3]
            · simp [TryGetBaseSetFile, contentMatches, h1, h2, h3, ih]
        · simp [TryGetBaseSetFile, contentMatches, h1, h2, ih]
      · simp [TryGetBaseSetFile, contentMatches, h1, ih]
  exact ⟨main, fun st => by simp [HasSet, main]⟩


theorem readC_tail (cs : List Char) (i : Nat) : readC cs.tail i = readC cs (i + 1) := by
  cases cs <;> simp [readC]

/-- The byte the decoder assembles from the character pair at positions
`2*i` and `2*i + 1`, big nibble first. -/
def pairByte (cs : List Char) (i : Nat) : Nat :=
  ((hexVal (readC cs (2 * i))).getD 0) <<< 4 ||| ((hexVal (readC cs (2 * i + 1))).getD 0)

/-- Claim C4 (amended): decoding succeeds exactly when each of the first
`2*n` positions of the input holds a character of `[0-9a-fA-F]` — so
every shorter input fails (the terminator at the end of the string is
read and rejected), while characters from position `2*n` onwards are
never examined and cannot cause failure — and on success each character
pair maps big-nibble-first to one output byte. -/
theorem decodeHexPairs_spec :
    ∀ (n : Nat) (cs : List Char),
      ((decodeHexPairs n cs).isSome ↔ ∀ i, i < 2 * n → (hexVal (readC cs i)).isSome) ∧
        ∀ bs, decodeHexPairs n cs = some bs → bs = (List.range n).map (pairByte cs)
  | 0, cs => by
    constructor
    · simp [decodeHexPairs]
    · intro bs h
      simp [decodeHexPairs] at h
      subst h
      simp
  | n + 1, cs => by
    have ih := decodeHexPairs_spec n cs.tail.tail
    have hr2 : ∀ i : Nat, readC cs.tail.tail i = readC cs (i + 2) := by
      intro i
      rw [readC_tail, readC_tail]
    constructor
    · cases hv0 : hexVal (readC cs 0) with
      | none =>
        constructor
        · intro h
          exfalso
          simp [decodeHexPairs, hv0] at h
        · intro h
          have h0 := h 0 (by omega)
          rw [hv0] at h0
          simp at h0
      | some hi =>
        cases hv1 : hexVal (readC cs 1) with
        | none =>
          constructor
          · intro h
            exfalso
            simp [decodeHexPairs, hv0, hv1] at h
          · intro h
            have h1 := h 1 (by omega)
            rw [hv1] at h1
            simp at h1
        | some lo =>
          have lhs_eq : (decodeHexPairs (n + 1) cs).isSome =
              (decodeHexPairs n cs.tail.tail).isSome := by
            simp [decodeHexPairs, hv0, hv1]
          rw [lhs_eq, ih.1]
          constructor
          · intro h i hilt
            match i, hilt with
            | 0, _ => rw [hv0]; rfl
            | 1, _ => rw [hv1]; rfl
            | (j + 2), hj =>
              have hh := h j (by omega)
              rw [hr2 j] at hh
              exact hh
          · intro h i hilt
            rw [hr2 i]
            exact h (i + 2) (by omega)
    · intro bs h
      cases hv0 : hexVal (readC cs 0) with
      | none => simp [decodeHexPairs, hv0] at h
      | some hi =>
        cases hv1 : hexVal (readC cs 1) with
        | none => simp [decodeHexPairs, hv0, hv1] at h
        | some lo =>
          simp only [decodeHexPairs, hv0, hv1, Option.map_eq_some'] at h
          obtain ⟨r, hr, hbs⟩ := h
          subst hbs
          have hmap := ih.2 r hr
          have hhead : pairByte cs 0 = hi <<< 4 ||| lo := by
            simp [pairByte, hv0, hv1]
          have hstep : ∀ i : Nat, pairByte cs.tail.tail i = pairByte cs (i + 1) := by
            intro i
            have e1 : 2 * (i + 1) = 2 * i + 2 := by ring
            have e2 : 2 * (i + 1) + 1 = 2 * i + 1 + 2 := by ring
            simp only [pairByte, hr2, e1, e2]
          rw [List.range_succ_eq_map, List.map_cons, List.map_map, hhead, hmap]
          refine congrArg _ (List.map_congr_left ?_)
          intro i _
          exact hstep i

/-- Claim C4 counterexample: a 33-character input — longer than the
32 characters the claim requires, its last character far outside the hex
alphabet — still decodes successfully, because the loop never examines
anything past position 31. -/
theorem decodeHexPairs_spec_counterexample :
    decodeMD5 "00000000000000000000000000000000z" = some (List.replicate 16 0) := by
  decide

theorem decodeHexPairs_spec_witness :
    (255 : Nat) :: 0 :: [] = (List.range 2).map (pairByte "FF00".data) :=
  (decodeHexPairs_spec 2 "FF00".data).2 (255 :: 0 :: []) (by decide)

/-- A well-formed manifest whose metadata group has no `fallback` key. -/
def metadataNoFallback : IniGroup :=
  ⟨[⟨"name", some "A"⟩, ⟨"description", some "D"⟩, ⟨"shortname", some "XYZW"⟩,
    ⟨"version", some "1"⟩]⟩

/-- The ini file around `metadataNoFallback`. -/
def iniNoFallback : IniFile := ⟨[("metadata", metadataNoFallback)]⟩

/-- Claim C5 counterexample: a manifest without the `fallback` key
yields a descriptor whose fallback flag is `false` — the claim's default
of `true` is wrong; the source's conjunction `item != NULL && ...` makes
the absent key produce `false`. -/
theorem fill_set_details_fallback_counterexample :
    Option.map BaseSet.fallback
        (FillSetDetails [] chkNoFile 0 iniNoFallback "" "f" true) = some false := by
  rfl

/-- Claim C5 (amended): the fallback flag of a descriptor produced by
`FillSetDetails` is `true` exactly when the metadata group has a
`fallback` item whose value is neither the literal `0` nor the literal
`false`; when the key is absent the flag defaults to `false`. -/
theorem fill_set_details_fallback (file_names : List String)
    (check : MD5File → ChecksumResult) (id : Nat) (ini : IniFile)
    (path ffn : String) (ae : Bool) (g : IniGroup) (s : BaseSet)
    (hg : ini.find "metadata" = some g)
    (hs : FillSetDetails file_names check id ini path ffn ae = some s) :
    s.fallback = true ↔
      ∃ it, g.find "fallback" = some it ∧
        it.value.getD "" ≠ "0" ∧ it.value.getD "" ≠ "false" := by
  unfold FillSetDetails at hs
  split at hs
  · exact absurd hs (by simp)
  · rename_i g' hg'
    obtain rfl : g' = g := by
      rw [hg] at hg'
      exact (Option.some.inj hg').symm
    split at hs
    · exact absurd hs (by simp)
    · split at hs
      · exact absurd hs (by simp)
      · split at hs
        · exact absurd hs (by simp)
        · split at hs
          · exact absurd hs (by simp)
          · split at hs
            · exact absurd hs (by simp)
            · obtain rfl : _ = s := Option.some.inj hs
              cases hf : g'.find "fallback" with
              | none => simp [hf]
              | some it => simp [hf]

/-- A well-formed manifest whose metadata group carries `fallback = 1`. -/
def metadataFallback1 : IniGroup :=
  ⟨[⟨"name", some "A"⟩, ⟨"description", some "D"⟩, ⟨"shortname", some "XYZW"⟩,
    ⟨"version", some "1"⟩, ⟨"fallback", some "1"⟩]⟩

/-- The ini file around `metadataFallback1`. -/
def iniFallback1 : IniFile := ⟨[("metadata", metadataFallback1)]⟩

theorem fill_set_details_fallback_witness :
    ((FillSetDetails [] chkNoFile 0 iniFallback1 "" "f" true).getD sampleSetA).fallback = true ↔
      ∃ it, metadataFallback1.find "fallback" = some it ∧
        it.value.getD "" ≠ "0" ∧ it.value.getD "" ≠ "false" :=
  fill_set_details_fallback [] chkNoFile 0 iniFallback1 "" "f" true metadataFallback1
    ((FillSetDetails [] chkNoFile 0 iniFallback1 "" "f" true).getD sampleSetA) rfl rfl

/-- Spec side: a required metadata field is present with a non-empty
value. -/
def fieldPresent (g : IniGroup) (n : String) : Prop :=
  ∃ it, g.find n = some it ∧ StrEmpty it.value = false

/-- Spec side: one required file slot is free of hard failures — it has
a `files`-group entry, a `NULL` value only when empty filenames are
allowed, and a decodable `md5s`-group checksum whenever a filename is
given. -/
def slotHardOK (filesg md5s : IniGroup) (ae : Bool) (fn : String) : Prop :=
  ∃ item, filesg.find fn = some item ∧
    (item.value = none → ae = true) ∧
    ∀ filename, item.value = some filename →
      ∃ md5item, md5s.find filename = some md5item ∧
        ∃ hexstr, md5item.value = some hexstr ∧ (decodeMD5 hexstr).isSome = true

/-- Spec side: the whole manifest is free of hard failures — metadata
group present, the four required fields non-empty, and every required
file slot hard-failure free. -/
def manifestHardOK (file_names : List String) (ini : IniFile) (ae : Bool) : Prop :=
  ∃ g, ini.find "metadata" = some g ∧
    fieldPresent g "name" ∧ fieldPresent g "description" ∧
    fieldPresent g "shortname" ∧ fieldPresent g "version" ∧
    ∀ fn ∈ file_names,
      slotHardOK (ini.get_group "files") (ini.get_group "md5s") ae fn

theorem fetch_metadata_isSome_iff (g : IniGroup) (n : String) :
    (fetch_metadata g n).isSome ↔ fieldPresent g n := by
  unfold fetch_metadata fieldPresent
  cases h : g.find n with
  | none => simp
  | some it =>
    by_cases he : StrEmpty it.value
    · simp [he]
    · simp [he]

theorem fillOne_isSome_iff (filesg md5s origin : IniGroup) (path : String) (ae : Bool)
    (check : MD5File → ChecksumResult) (fn : String) :
    (fillOne filesg md5s origin path ae check fn).isSome ↔
      slotHardOK filesg md5s ae fn := by
  unfold fillOne slotHardOK
  cases h1 : filesg.find fn with
  | none => simp
  | some item =>
    cases h2 : item.value with
    | none =>
      cases ae
      · simp [h2]
      · simp [h2]
    | some filename =>
      cases h3 : md5s.find filename with
      | none => simp [h2, h3]
      | some md5item =>
        cases h4 : md5item.value with
        | none => simp [h2, h3, h4]
        | some hexstr =>
          cases h5 : decodeMD5 hexstr with
          | none => simp [h2, h3, h4, h5]
          | some hash =>
            cases hc : check ⟨some (path ++ filename), hash, originWarning origin filename⟩ <;>
              simp [h2, h3, h4, h5, hc]

theorem fillFiles_isSome_split (filesg md5s origin : IniGroup) (path : String) (ae : Bool)
    (check : MD5File → ChecksumResult) (fn : String) (rest : List String) :
    (fillFiles filesg md5s origin path ae check (fn :: rest)).isSome =
      ((fillOne filesg md5s origin path ae check fn).isSome &&
        (fillFiles filesg md5s origin path ae check rest).isSome) := by
  simp only [fillFiles]
  cases ho : fillOne filesg md5s origin path ae check fn with
  | none => simp
  | some pr =>
    obtain ⟨file, v1, f1⟩ := pr
    cases hr : fillFiles filesg md5s origin path ae check rest with
    | none => simp
    | some pr2 =>
      obtain ⟨fs, v, f⟩ := pr2
      simp

theorem fillFiles_isSome_iff (filesg md5s origin : IniGroup) (path : String) (ae : Bool)
    (check : MD5File → ChecksumResult) :
    ∀ fns : List String,
      (fillFiles filesg md5s origin path ae check fns).isSome ↔
        ∀ fn ∈ fns, slotHardOK filesg md5s ae fn
  | [] => by simp [fillFiles]
  | fn :: rest => by
    have ih := fillFiles_isSome_iff filesg md5s origin path ae check rest
    have h1 := fillOne_isSome_iff filesg md5s origin path ae check fn
    rw [fillFiles_isSome_split]
    simp [Bool.and_eq_true, h1, ih]

theorem fill_set_details_isSome_iff (file_names : List String)
    (check : MD5File → ChecksumResult) (id : Nat) (ini : IniFile)
    (path ffn : String) (ae : Bool) :
    (FillSetDetails file_names check id ini path ffn ae).isSome ↔
      manifestHardOK file_names ini ae := by
  unfold FillSetDetails manifestHardOK
  split
  · rename_i hg
    simp [hg]
  · rename_i g hg
    rw [hg]
    simp only [Option.some.injEq, exists_eq_left']
    split
    · rename_i hn
      have hnn := fetch_metadata_isSome_iff g "name"
      rw [hn] at hnn
      simp [← hnn]
    · rename_i nameItem hn
      split
      · rename_i hd
        have hdd := fetch_metadata_isSome_iff g "description"
        rw [hd] at hdd
        simp [← hdd]
      · rename_i descItem hd
        split
        · rename_i hsh
          have hss := fetch_metadata_isSome_iff g "shortname"
          rw [hsh] at hss
          simp [← hss]
        · rename_i shortItem hsh
          split
          · rename_i hv
            have hvv := fetch_metadata_isSome_iff g "version"
            rw [hv] at hvv
            simp [← hvv]
          · rename_i versionItem hv
            split
            · rename_i hf
              have hff := fillFiles_isSome_iff (ini.get_group "files") (ini.get_group "md5s")
                (ini.get_group "origin") path ae check file_names
              rw [hf] at hff
              simp [← hff]
            · rename_i fs v f hf
              have hff := fillFiles_isSome_iff (ini.get_group "files") (ini.get_group "md5s")
                (ini.get_group "origin") path ae check file_names
              rw [hf] at hff
              have h1 := fetch_metadata_isSome_iff g "name"
              have h2 := fetch_metadata_isSome_iff g "description"
              have h3 := fetch_metadata_isSome_iff g "shortname"
              have h4 := fetch_metadata_isSome_iff g "version"
              rw [hn] at h1
              rw [hd] at h2
              rw [hsh] at h3
              rw [hv] at h4
              simp [← h1, ← h2, ← h3, ← h4, ← hff]

/-- Claim C6: `FillSetDetails` succeeds exactly when the manifest is
free of hard failures — metadata group present; non-empty `name`,
`description`, `shortname`, `version`; every required slot with a
`files` entry (a `NULL` value only when empty filenames are allowed)
and, whenever a filename is given, a decodable `md5s` checksum — and the
external integrity check never influences the returned flag: the success
bit is the same for any two check capabilities (and any id or path), so
a Missing or Mismatched file never causes a `false` return. -/
theorem fill_set_details_true_iff (file_names : List String)
    (check check' : MD5File → ChecksumResult) (id id' : Nat) (ini : IniFile)
    (path path' ffn ffn' : String) (ae : Bool) :
    ((FillSetDetails file_names check id ini path ffn ae).isSome ↔
        manifestHardOK file_names ini ae) ∧
      (FillSetDetails file_names check id ini path ffn ae).isSome =
        (FillSetDetails file_names check' id' ini path' ffn' ae).isSome := by
  refine ⟨fill_set_details_isSome_iff file_names check id ini path ffn ae, ?_⟩
  have h1 := fill_set_details_isSome_iff file_names check id ini path ffn ae
  have h2 := fill_set_details_isSome_iff file_names check' id' ini path' ffn' ae
  have h3 := h1.trans h2.symm
  cases hb : (FillSetDetails file_names check id ini path ffn ae).isSome with
  | true => exact (h3.mp (by rw [hb])).symm
  | false =>
    cases hb' : (FillSetDetails file_names check' id' ini path' ffn' ae).isSome with
    | true => exact absurd (h3.mpr (by rw [hb'])) (by rw [hb]; simp)
    | false => rfl

theorem fillOne_counters (filesg md5s origin : IniGroup) (path : String) (ae : Bool)
    (check : MD5File → ChecksumResult) (fn : String) (file : MD5File) (v1 f1 : Nat)
    (h : fillOne filesg md5s origin path ae check fn = some (file, v1, f1)) :
    v1 ≤ f1 ∧ f1 ≤ 1 := by
  unfold fillOne at h
  split at h
  · exact absurd h (by simp)
  · split at h
    · split at h
      · obtain ⟨-, rfl, rfl⟩ := Prod.mk.injEq .. ▸ Option.some.inj h
        exact ⟨Nat.le_refl 1, Nat.le_refl 1⟩
      · exact absurd h (by simp)
    · split at h
      · exact absurd h (by simp)
      · split at h
        · exact absurd h (by simp)
        · split at h
          · exact absurd h (by simp)
          · dsimp only at h
            split at h
            all_goals obtain ⟨-, rfl, rfl⟩ := Prod.mk.injEq .. ▸ Option.some.inj h
            · exact ⟨Nat.le_refl 1, Nat.le_refl 1⟩
            · exact ⟨Nat.zero_le 1, Nat.le_refl 1⟩
            · exact ⟨Nat.zero_le 0, Nat.zero_le 1⟩

theorem fillFiles_counters (filesg md5s origin : IniGroup) (path : String) (ae : Bool)
    (check : MD5File → ChecksumResult) :
    ∀ (fns : List String) (fs : List MD5File) (v f : Nat),
      fillFiles filesg md5s origin path ae check fns = some (fs, v, f) →
      v ≤ f ∧ f ≤ fns.length
  | [], fs, v, f, h => by
    simp [fillFiles] at h
    obtain ⟨-, rfl, rfl⟩ := h
    exact ⟨Nat.le_refl 0, Nat.le_refl 0⟩
  | fn :: rest, fs, v, f, h => by
    rw [show fillFiles filesg md5s origin path ae check (fn :: rest) =
        (match fillOne filesg md5s origin path ae check fn with
         | none => none
         | some (file, v1, f1) =>
           match fillFiles filesg md5s origin path ae check rest with
           | none => none
           | some (fs, v, f) => some (file :: fs, v1 + v, f1 + f)) from rfl] at h
    cases ho : fillOne filesg md5s origin path ae check fn with
    | none =>
      rw [ho] at h
      exact absurd h (by simp)
    | some pr =>
      obtain ⟨file, v1, f1⟩ := pr
      rw [ho] at h
      cases hr : fillFiles filesg md5s origin path ae check rest with
      | none =>
        rw [hr] at h
        exact absurd h (by simp)
      | some pr2 =>
        obtain ⟨fs2, v2, f2⟩ := pr2
        rw [hr] at h
        obtain ⟨-, rfl, rfl⟩ := Prod.mk.injEq .. ▸ Option.some.inj h
        have hone := fillOne_counters filesg md5s origin path ae check fn file v1 f1 ho
        have hrec := fillFiles_counters filesg md5s origin path ae check rest fs2 v2 f2 hr
        refine ⟨Nat.add_le_add hone.1 hrec.1, ?_⟩
        have hsum := Nat.add_le_add hone.2 hrec.2
        simp only [List.length_cons]
        omega

/-- Claim C10: a descriptor produced by a successful `FillSetDetails`
satisfies `0 ≤ valid_files ≤ found_files ≤ Tnum_files`: each of the
`Tnum_files` slots contributes at most one increment to each counter,
and every `valid_files` increment comes with a `found_files`
increment. -/
theorem fill_counters_invariant (file_names : List String)
    (check : MD5File → ChecksumResult) (id : Nat) (ini : IniFile)
    (path ffn : String) (ae : Bool) (s : BaseSet)
    (hs : FillSetDetails file_names check id ini path ffn ae = some s) :
    0 ≤ s.valid_files ∧ s.valid_files ≤ s.found_files ∧
      s.found_files ≤ file_names.length := by
  unfold FillSetDetails at hs
  split at hs
  · exact absurd hs (by simp)
  · split at hs
    · exact absurd hs (by simp)
    · split at hs
      · exact absurd hs (by simp)
      · split at hs
        · exact absurd hs (by simp)
        · split at hs
          · exact absurd hs (by simp)
          · split at hs
            · exact absurd hs (by simp)
            · rename_i fs v f hf
              obtain rfl : _ = s := Option.some.inj hs
              have hc := fillFiles_counters (ini.get_group "files") (ini.get_group "md5s")
                (ini.get_group "origin") path ae check file_names fs v f hf
              exact ⟨Nat.zero_le _, hc.1, hc.2⟩

/-- A manifest with one required file slot declared explicitly empty. -/
def iniOneEmptySlot : IniFile :=
  ⟨[("metadata", metadataNoFallback), ("files", ⟨[⟨"f1", none⟩]⟩)]⟩

theorem fill_counters_invariant_witness :
    0 ≤ ((FillSetDetails ["f1"] chkNoFile 0 iniOneEmptySlot "" "f" true).getD
          sampleSetA).valid_files ∧
      ((FillSetDetails ["f1"] chkNoFile 0 iniOneEmptySlot "" "f" true).getD
          sampleSetA).valid_files ≤
        ((FillSetDetails ["f1"] chkNoFile 0 iniOneEmptySlot "" "f" true).getD
            sampleSetA).found_files ∧
      ((FillSetDetails ["f1"] chkNoFile 0 iniOneEmptySlot "" "f" true).getD
          sampleSetA).found_files ≤ 1 :=
  fill_counters_invariant ["f1"] chkNoFile 0 iniOneEmptySlot "" "f" true
    ((FillSetDetails ["f1"] chkNoFile 0 iniOneEmptySlot "" "f" true).getD sampleSetA) rfl
